import Mathlib

/-!
Verification of the geezer-slots reward engine (`src/main.rs`) against its
design specification.  The Rust source is shallowly embedded: the pull
orchestrator `slot_pull`, the decorative-sequence generator (the inline loop
of `slot_pull`), the grid renderer (the `MessageBuilder` block of
`slot_pull`), the backup thread of `main`, and the flat-dump format of
`export_tickets_db_tree` / `export_account_db_tree` become Lean functions.
Machine integers (`u64`) are `Nat` with explicit reduction modulo `2 ^ 64`
where the Rust addition can wrap; the random draws (winning tier, winning
row, decorative tier stream) are passed in as explicit arguments.
-/

namespace GeezerSlots

/-- The eight reward tiers of `enum Pulls` in `src/main.rs`. -/
inductive Pulls where
  | VCommon
  | Common
  | Uncommon
  | Rare
  | VRare
  | Epic
  | Legendary
  | Jackpot
deriving DecidableEq, Repr

/-- The tier weights from the `#[weight(..)]` attributes on `Pulls`. -/
def pullWeight : Pulls → Nat
  | .VCommon => 100
  | .Common => 95
  | .Uncommon => 75
  | .Rare => 60
  | .VRare => 50
  | .Epic => 30
  | .Legendary => 10
  | .Jackpot => 1

/-- Units paid out per tier, from the `match pull` table of `slot_pull`. -/
def pullUnits : Pulls → Nat
  | .VCommon => 0
  | .Common => 25
  | .Uncommon => 100
  | .Rare => 250
  | .VRare => 500
  | .Epic => 1000
  | .Legendary => 2500
  | .Jackpot => 5000

/-! Emoji identifiers, from the `EmojiId(..)` constants of `slot_pull`.
An emoji is represented by its numeric id; the Rust code compares emojis by
`emoji.id` as well. -/

def emoji_default : Nat := 808737149507076147
def emoji_thisdog : Nat := 672248379023163392
def emoji_delfruit : Nat := 951979442736074802
def emoji_bigface : Nat := 269629753647038464
def emoji_miku : Nat := 548647780500111390
def emoji_tagfacehd : Nat := 476888451132686361
def emoji_patsball : Nat := 378972419685351441
def emoji_fruitpride : Nat := 562501619615268884
def emoji_mayumushi_ani : Nat := 951798762567766036
def emoji_mayumushi : Nat := 951906103271235654
def emoji_kidangry : Nat := 269629941090484225
def emoji_kidsleeper : Nat := 269629879949983758
def emoji_kidunamused : Nat := 269629805111148554
def emoji_kidthinking : Nat := 269629915882586122
def emoji_kidchamp : Nat := 251469271077486602
def emoji_kidd : Nat := emoji_default

/-- The winning emote per tier, from the `match pull` table of `slot_pull`. -/
def pullEmote : Pulls → Nat
  | .VCommon => emoji_thisdog
  | .Common => emoji_delfruit
  | .Uncommon => emoji_bigface
  | .Rare => emoji_miku
  | .VRare => emoji_tagfacehd
  | .Epic => emoji_patsball
  | .Legendary => emoji_fruitpride
  | .Jackpot => emoji_mayumushi_ani

/-- The reaction emote per tier, from the `match pull` table of `slot_pull`. -/
def pullReact : Pulls → Nat
  | .VCommon => emoji_kidangry
  | .Common => emoji_kidsleeper
  | .Uncommon => emoji_kidunamused
  | .Rare => emoji_kidthinking
  | .VRare => emoji_kidchamp
  | .Epic => emoji_kidchamp
  | .Legendary => emoji_kidchamp
  | .Jackpot => emoji_kidd

/-- The decorative emote per tier, from the `match emote_rarity` table inside
the decorative loop of `slot_pull` (note: `Jackpot` maps to the non-animated
`emoji_mayumushi` here, unlike the winning-emote table). -/
def decoEmoji : Pulls → Nat
  | .VCommon => emoji_thisdog
  | .Common => emoji_delfruit
  | .Uncommon => emoji_bigface
  | .Rare => emoji_miku
  | .VRare => emoji_tagfacehd
  | .Epic => emoji_patsball
  | .Legendary => emoji_fruitpride
  | .Jackpot => emoji_mayumushi

/-- `2 ^ 64`: the modulus of Rust `u64` arithmetic. -/
def U64 : Nat := 2 ^ 64

/-- The per-user slice of the two sled stores: the value stored under the
user's key in `db/tickets` and in `db/account`.  `none` models an absent
key; stored values are decimal strings of `u64` values, modelled as `Nat`. -/
structure PullState where
  tickets : Option Nat
  currency : Option Nat
deriving DecidableEq, Repr

/-- One fragment of the rendered reply text, mirroring the `MessageBuilder`
calls of `slot_pull`: `bar` is a pushed `|`, `nl` a pushed newline (the code
pushes them together as the string of a bar followed by a newline), `sym` an
emoji rendered via `.emoji(..)`, `txt` any other pushed string. -/
inductive Tok where
  | bar
  | nl
  | sym (id : Nat)
  | txt (s : String)
deriving DecidableEq, Repr

/-- The fixed decline message of `slot_pull` (byte-for-byte as in the
source, including its leading mojibake glyphs). -/
def declineMsg : String := "âŒUnfortunately, you do not have any tickets to perform pulls."

/-- The decorative-sequence loop of `slot_pull`: consume a stream of tier
draws, with state `last` (the `last_emote` variable, by id), `same` (the
repeat counter) and `extra` (the accepted symbols so far).  Returns `none`
when the stream runs out before six symbols are accepted (the real loop
would keep drawing). -/
def genDecoAux : List Pulls → Nat → Nat → List Nat → Option (List Nat)
  | [], _, _, _ => none
  | d :: rest, last, same, extra =>
    let emoji := decoEmoji d
    if emoji = last then
      if same + 1 = 2 then
        genDecoAux rest last (same + 1) extra
      else if (extra ++ [emoji]).length = 6 then
        some (extra ++ [emoji])
      else
        genDecoAux rest last (same + 1) (extra ++ [emoji])
    else if (extra ++ [emoji]).length = 6 then
      some (extra ++ [emoji])
    else
      genDecoAux rest emoji 0 (extra ++ [emoji])

/-- The decorative generator with its initial state from the source:
`last_emote = emoji_default`, `same = 0`, empty `extra` vector. -/
def genDeco (draws : List Pulls) : Option (List Nat) :=
  genDecoAux draws emoji_default 0 []

/-- One rendering loop of `slot_pull`, on the reversed `extra` vector so
that `Vec::pop` (pop from the back) is head recursion: emit a bar and the
popped symbol; once the remaining vector has length `stop`, emit the closing
bar and newline and stop. -/
def popLoopRev (stop : Nat) : List Nat → List Tok × List Nat
  | [] => ([], [])
  | e :: rest =>
    if rest.length = stop then
      ([Tok.bar, Tok.sym e, Tok.bar, Tok.nl], rest)
    else
      (Tok.bar :: Tok.sym e :: (popLoopRev stop rest).1, (popLoopRev stop rest).2)

/-- A rendering loop of `slot_pull` acting on the `extra` vector in its
stored order: pops come from the back; the second component is what remains
of the vector. -/
def popLoop (extra : List Nat) (stop : Nat) : List Tok × List Nat :=
  ((popLoopRev stop extra.reverse).1, (popLoopRev stop extra.reverse).2.reverse)

/-- The winning row as pushed by `slot_pull`: bar, emote, bar, emote, bar,
emote, then the closing bar and newline. -/
def winRowToks (emote : Nat) : List Tok :=
  [Tok.bar, Tok.sym emote, Tok.bar, Tok.sym emote, Tok.bar, Tok.sym emote,
   Tok.bar, Tok.nl]

/-- The `MessageBuilder` block of `slot_pull`: three branches on `row`
(0, 1, otherwise), each consuming the six decorative symbols by popping from
the back of `extra` (first down to three remaining, then to empty), followed
by the reaction emote and the winnings text. -/
def renderMsg (emote react units row : Nat) (extra : List Nat) : List Tok :=
  let p1 := popLoop extra 3
  let p2 := popLoop p1.2 0
  let grid :=
    if row = 0 then
      winRowToks emote ++ p1.1 ++ p2.1
    else if row = 1 then
      p1.1 ++ winRowToks emote ++ p2.1
    else
      p1.1 ++ p2.1 ++ winRowToks emote
  grid ++ [Tok.sym react, Tok.txt (", Won " ++ toString units ++ " Units!")]

/-- Split a token sequence into its lines at `Tok.nl` (the newline tokens);
the newline itself belongs to no line. -/
def tokLines : List Tok → List (List Tok)
  | [] => [[]]
  | Tok.nl :: rest => [] :: tokLines rest
  | t :: rest =>
    match tokLines rest with
    | [] => [[t]]
    | l :: ls => (t :: l) :: ls

/-- A rendered grid row holding the three symbols `x`, `y`, `z`. -/
def lineOf (x y z : Nat) : List Tok :=
  [Tok.bar, Tok.sym x, Tok.bar, Tok.sym y, Tok.bar, Tok.sym z, Tok.bar]

/-- Whether a token line has the shape of a grid row: bar, symbol, bar,
symbol, bar, symbol, bar. -/
def isTripleRow (l : List Tok) : Bool :=
  match l with
  | [Tok.bar, Tok.sym _, Tok.bar, Tok.sym _, Tok.bar, Tok.sym _, Tok.bar] => true
  | _ => false

/-- The pull orchestrator `slot_pull`, for one user, as a function of the
user's stored slice `st` and of the random draws: the winning tier `pull`,
the winning row `row` (drawn from `0..=2`), and the decorative tier stream
`draws`.  Returns the stored slice after the call together with the reply
fragments (`none` when the decorative stream was exhausted; the stores have
been written by then regardless, as in the source, where both inserts
precede the decorative loop). -/
def slot_pull (st : PullState) (pull : Pulls) (row : Nat) (draws : List Pulls) :
    PullState × Option (List Tok) :=
  let tickets := st.tickets.getD 50
  if tickets ≠ 0 then
    let tickets' := tickets - 1
    let units := pullUnits pull
    let account := st.currency.getD 0
    let st' : PullState := ⟨some tickets', some ((account + units) % U64)⟩
    (st', (genDeco draws).map fun extra =>
      renderMsg (pullEmote pull) (pullReact pull) units row extra)
  else
    (st, some [Tok.txt declineMsg])

/-- Length of the run of copies of `v` at the head of the list. -/
def runLen (v : Nat) : List Nat → Nat
  | [] => 0
  | x :: xs => if x = v then runLen v xs + 1 else 0

/-- Length of the longest run of identical consecutive elements. -/
def maxRun : List Nat → Nat
  | [] => 0
  | x :: xs => max (runLen x xs + 1) (maxRun xs)

/-! The backup thread spawned in `main`.  A cycle's fallible steps are, in
order: `export_tickets_db_tree()`, `export_account_db_tree()`,
`backup_task()` (archive creation), and the S3 upload.  Each is modelled by
an optional error.  The `remove_file` cleanup calls run only after a fully
successful upload, because the `?` operator returns from the thread closure
on the first failing step. -/

/-- Outcome of the fallible steps of one scheduled backup cycle. -/
structure BackupCycle where
  exportTicketsErr : Option String
  exportAccountErr : Option String
  archiveErr : Option String
  uploadErr : Option String
deriving DecidableEq, Repr

/-- The first error a cycle's body hits, following the `?` chain of the
thread closure in `main`. -/
def cycleErr (c : BackupCycle) : Option String :=
  match c.exportTicketsErr with
  | some e => some e
  | none =>
    match c.exportAccountErr with
    | some e => some e
    | none =>
      match c.archiveErr with
      | some e => some e
      | none => c.uploadErr

/-- Whether the cycle's `remove_file` cleanup lines run: they are reached
only when every prior `?` succeeded. -/
def cycleCleanup (c : BackupCycle) : Bool :=
  (cycleErr c).isNone

/-- The backup thread of `main`, run over a finite schedule of cycles: each
iteration sleeps, then runs one cycle's body; the first failing step makes
the `?` operator return the error from the closure, ending the thread. -/
def backupLoop : List BackupCycle → Except String Unit
  | [] => Except.ok ()
  | c :: rest =>
    match cycleErr c with
    | some e => Except.error e
    | none => backupLoop rest

/-- How many scheduled cycles actually start executing before the thread
dies (all of them, when none fails). -/
def cyclesRun : List BackupCycle → Nat
  | [] => 0
  | c :: rest =>
    match cycleErr c with
    | some _ => 1
    | none => 1 + cyclesRun rest

/-! The flat-dump format of `export_tickets_db_tree` / `export_account_db_tree`:
for each exported tree, the collection identifier line, the tree-name line,
then one `key,value` line per pair (the inner counter loop writes the key,
a comma, the value, a newline).  Dumps are modelled as character lists. -/

/-- One `key,value` line of the dump, as written by the inner loop of the
export functions. -/
def dumpPair (p : List Char × List Char) : List Char :=
  p.1 ++ ',' :: (p.2 ++ ['\n'])

/-- The whole flat dump of one exported tree: identifier line, store-tag
line, then one line per key-value pair. -/
def exportDump (ident tag : List Char) (pairs : List (List Char × List Char)) :
    List Char :=
  ident ++ '\n' :: (tag ++ '\n' :: (pairs.map dumpPair).flatten)

/-- Split a character sequence into lines at newline characters. -/
def linesOf : List Char → List (List Char)
  | [] => [[]]
  | c :: rest =>
    if c = '\n' then [] :: linesOf rest
    else
      match linesOf rest with
      | [] => [[c]]
      | l :: ls => (c :: l) :: ls

/-- Split a line at its first comma into the key part and the value part. -/
def splitComma : List Char → List Char × List Char
  | [] => ([], [])
  | c :: cs =>
    if c = ',' then ([], cs)
    else (c :: (splitComma cs).1, (splitComma cs).2)

/-- Parse the body lines of a dump: every newline-terminated line is a
`key,value` pair; the trailing empty fragment after the final newline ends
the body. -/
def parseBody : List (List Char) → Option (List (List Char × List Char))
  | [] => none
  | [l] => if l = [] then some [] else none
  | l :: rest => (parseBody rest).map fun ps => splitComma l :: ps

/-- Re-parse a flat dump: first line is the identifier, second the store
tag, every further newline-terminated line a `key,value` pair. -/
def parseDump (s : List Char) :
    Option (List Char × List Char × List (List Char × List Char)) :=
  match linesOf s with
  | ident :: tag :: rest => (parseBody rest).map fun ps => (ident, tag, ps)
  | _ => none

/-- All characters of the string are decimal digits (the keys and values
written by the bot are `u64` decimal strings). -/
def strDigits (s : List Char) : Bool :=
  s.all Char.isDigit

/-- No character of the string is a newline. -/
def strNoNL (s : List Char) : Bool :=
  s.all fun c => c != '\n'

/-! ## Theorems -/

/-- C2: for every user whose stored ticket balance is 0, `slot_pull` returns
the fixed decline message and leaves the stored slice untouched: neither the
ticket store nor the currency store is written. -/
theorem c2_no_tickets_declines (st : PullState) (pull : Pulls) (row : Nat)
    (draws : List Pulls) (h : st.tickets = some 0) :
    slot_pull st pull row draws = (st, some [Tok.txt declineMsg]) := by
  simp [slot_pull, h]

theorem c2_no_tickets_declines_w :
    ((⟨some 0, some 7⟩ : PullState).tickets = some 0) ∧
    slot_pull ⟨some 0, some 7⟩ Pulls.Rare 1 []
      = (⟨some 0, some 7⟩, some [Tok.txt declineMsg]) :=
  ⟨rfl, c2_no_tickets_declines ⟨some 0, some 7⟩ Pulls.Rare 1 [] rfl⟩

/-- C1 (counterexample to the unqualified claim): at a stored currency
balance of `2 ^ 64 - 1`, a `Common` pull does not write `c + 25`; the `u64`
addition wraps. -/
theorem c1_currency_overflow_cex :
    ((slot_pull ⟨some 5, some (U64 - 1)⟩ Pulls.Common 0 []).1).currency
      ≠ some (U64 - 1 + 25) := by decide

/-- C1 (amended): for a positive ticket balance `t` (50 when absent) and a
prior currency balance `c` (0 when absent) with `c + payout < 2 ^ 64`,
`slot_pull` writes ticket balance `t - 1` and currency balance `c + payout`,
with the fixed payouts 0, 25, 100, 250, 500, 1000, 2500, 5000 per tier. -/
theorem c1_pull_debits_and_credits (st : PullState) (pull : Pulls) (row : Nat)
    (draws : List Pulls) (ht : st.tickets.getD 50 ≠ 0)
    (hc : st.currency.getD 0 + pullUnits pull < U64) :
    ((slot_pull st pull row draws).1
        = ⟨some (st.tickets.getD 50 - 1),
           some (st.currency.getD 0 + pullUnits pull)⟩) ∧
    pullUnits Pulls.VCommon = 0 ∧ pullUnits Pulls.Common = 25 ∧
    pullUnits Pulls.Uncommon = 100 ∧ pullUnits Pulls.Rare = 250 ∧
    pullUnits Pulls.VRare = 500 ∧ pullUnits Pulls.Epic = 1000 ∧
    pullUnits Pulls.Legendary = 2500 ∧ pullUnits Pulls.Jackpot = 5000 := by
  refine ⟨?_, rfl, rfl, rfl, rfl, rfl, rfl, rfl, rfl⟩
  simp [slot_pull, ht, Nat.mod_eq_of_lt hc]

theorem c1_pull_debits_and_credits_w :
    ((⟨some 5, some 10⟩ : PullState).tickets.getD 50 ≠ 0) ∧
    ((⟨some 5, some 10⟩ : PullState).currency.getD 0 + pullUnits Pulls.Jackpot < U64) ∧
    ((slot_pull ⟨some 5, some 10⟩ Pulls.Jackpot 2 []).1
        = ⟨some ((⟨some 5, some 10⟩ : PullState).tickets.getD 50 - 1),
           some ((⟨some 5, some 10⟩ : PullState).currency.getD 0
                   + pullUnits Pulls.Jackpot)⟩) :=
  ⟨by decide, by decide,
    (c1_pull_debits_and_credits ⟨some 5, some 10⟩ Pulls.Jackpot 2 []
      (by decide) (by decide)).1⟩

/-- C7: a fresh user (no stored value under either key) is read with the
defaults 50 tickets and 0 currency, so the first pull proceeds and leaves a
stored ticket balance of 49 and a stored currency balance equal to the
sampled tier's payout. -/
theorem c7_fresh_user_defaults (pull : Pulls) (row : Nat) (draws : List Pulls) :
    (slot_pull ⟨none, none⟩ pull row draws).1
      = ⟨some 49, some (pullUnits pull)⟩ := by
  cases pull <;> simp [slot_pull, pullUnits] <;> norm_num [U64]

/-- C10: the currency credit is an unchecked `u64` addition: whenever the
prior balance `c` exceeds `2 ^ 64 - 1 - payout`, the written balance is
`c + payout - 2 ^ 64` (the sum reduced modulo `2 ^ 64`), which is strictly
below `c` — the stored balance is not monotone at the type's upper bound. -/
theorem c10_currency_wraps (st : PullState) (pull : Pulls) (row : Nat)
    (draws : List Pulls) (ht : st.tickets.getD 50 ≠ 0)
    (hlt : st.currency.getD 0 < U64)
    (hov : U64 - 1 - pullUnits pull < st.currency.getD 0) :
    ((slot_pull st pull row draws).1).currency
        = some (st.currency.getD 0 + pullUnits pull - U64) ∧
    st.currency.getD 0 + pullUnits pull - U64 < st.currency.getD 0 := by
  have hu : pullUnits pull ≤ 5000 := by cases pull <;> simp [pullUnits]
  have hU : U64 = 18446744073709551616 := by norm_num [U64]
  rw [hU] at hlt hov ⊢
  have h1 : (st.currency.getD 0 + pullUnits pull) % 18446744073709551616
      = st.currency.getD 0 + pullUnits pull - 18446744073709551616 := by
    omega
  refine ⟨?_, by omega⟩
  simp [slot_pull, ht, hU, h1]

theorem c10_currency_wraps_w :
    ((⟨some 1, some (U64 - 1)⟩ : PullState).tickets.getD 50 ≠ 0) ∧
    ((⟨some 1, some (U64 - 1)⟩ : PullState).currency.getD 0 < U64) ∧
    (U64 - 1 - pullUnits Pulls.Common
        < (⟨some 1, some (U64 - 1)⟩ : PullState).currency.getD 0) ∧
    ((slot_pull ⟨some 1, some (U64 - 1)⟩ Pulls.Common 0 []).1).currency
        = some ((⟨some 1, some (U64 - 1)⟩ : PullState).currency.getD 0
                  + pullUnits Pulls.Common - U64) ∧
    (⟨some 1, some (U64 - 1)⟩ : PullState).currency.getD 0
        + pullUnits Pulls.Common - U64
      < (⟨some 1, some (U64 - 1)⟩ : PullState).currency.getD 0 :=
  ⟨by decide, by decide, by decide,
    (c10_currency_wraps ⟨some 1, some (U64 - 1)⟩ Pulls.Common 0 []
      (by decide) (by decide) (by decide)).1,
    (c10_currency_wraps ⟨some 1, some (U64 - 1)⟩ Pulls.Common 0 []
      (by decide) (by decide) (by decide)).2⟩

/-- Every successful run of the decorative loop accepts exactly six
symbols: `genDecoAux` only returns a list at the length-six check. -/
theorem genDecoAux_len (draws : List Pulls) :
    ∀ (last same : Nat) (extra out : List Nat),
      genDecoAux draws last same extra = some out → out.length = 6 := by
  induction draws with
  | nil => intro last same extra out h; simp [genDecoAux] at h
  | cons d rest ih =>
    intro last same extra out h
    simp only [genDecoAux] at h
    by_cases h1 : decoEmoji d = last
    · rw [if_pos h1] at h
      by_cases h2 : same + 1 = 2
      · rw [if_pos h2] at h
        exact ih _ _ _ _ h
      · rw [if_neg h2] at h
        by_cases h3 : (extra ++ [decoEmoji d]).length = 6
        · rw [if_pos h3] at h
          exact Option.some.inj h ▸ h3
        · rw [if_neg h3] at h
          exact ih _ _ _ _ h
    · rw [if_neg h1] at h
      by_cases h4 : (extra ++ [decoEmoji d]).length = 6
      · rw [if_pos h4] at h
        exact Option.some.inj h ▸ h4
      · rw [if_neg h4] at h
        exact ih _ _ _ _ h

/-- C3: the decorative generator accepts exactly 6 symbols, and one step of
its loop does exactly the source's bookkeeping: a draw equal to the last
accepted symbol increments the repeat counter, and is discarded — without
touching the accepted list, the last-accepted symbol, or (beyond the
increment) the counter — exactly when the incremented counter is 2; any
other equal draw is accepted keeping the incremented counter (so a repeat
right after a discard is accepted with counter 3, permitting a run of
three); a differing draw is accepted with the counter reset to 0 and itself
as the new last accepted. -/
theorem c3_generator_bookkeeping :
    (∀ (draws : List Pulls) (out : List Nat),
        genDeco draws = some out → out.length = 6) ∧
    (∀ (d : Pulls) (rest : List Pulls) (last same : Nat) (extra : List Nat),
      (decoEmoji d = last → same + 1 = 2 →
        genDecoAux (d :: rest) last same extra
          = genDecoAux rest last (same + 1) extra) ∧
      (decoEmoji d = last → same + 1 ≠ 2 →
        genDecoAux (d :: rest) last same extra
          = if (extra ++ [decoEmoji d]).length = 6 then some (extra ++ [decoEmoji d])
            else genDecoAux rest last (same + 1) (extra ++ [decoEmoji d])) ∧
      (decoEmoji d ≠ last →
        genDecoAux (d :: rest) last same extra
          = if (extra ++ [decoEmoji d]).length = 6 then some (extra ++ [decoEmoji d])
            else genDecoAux rest (decoEmoji d) 0 (extra ++ [decoEmoji d]))) ∧
    (∃ (ds : List Pulls) (out : List Nat),
        genDeco ds = some out ∧ 3 ≤ maxRun out) := by
  refine ⟨fun draws out h => genDecoAux_len draws _ _ _ _ h, ?_, ?_⟩
  · intro d rest last same extra
    refine ⟨fun h1 h2 => ?_, fun h1 h2 => ?_, fun h1 => ?_⟩
    · simp [genDecoAux, h1, h2]
    · simp [genDecoAux, h1, h2]
    · simp [genDecoAux, h1]
  · exact ⟨[Pulls.VCommon, Pulls.VCommon, Pulls.VCommon, Pulls.VCommon,
        Pulls.Common, Pulls.Rare, Pulls.Epic],
      [emoji_thisdog, emoji_thisdog, emoji_thisdog, emoji_delfruit,
        emoji_miku, emoji_patsball],
      by decide, by decide⟩

theorem c3_generator_bookkeeping_w :
    (genDeco [Pulls.VCommon, Pulls.VCommon, Pulls.VCommon, Pulls.VCommon,
        Pulls.VCommon, Pulls.VCommon, Pulls.VCommon]
      = some [emoji_thisdog, emoji_thisdog, emoji_thisdog, emoji_thisdog,
          emoji_thisdog, emoji_thisdog]) ∧
    ([emoji_thisdog, emoji_thisdog, emoji_thisdog, emoji_thisdog,
        emoji_thisdog, emoji_thisdog] : List Nat).length = 6 :=
  ⟨by decide,
    c3_generator_bookkeeping.1
      [Pulls.VCommon, Pulls.VCommon, Pulls.VCommon, Pulls.VCommon,
        Pulls.VCommon, Pulls.VCommon, Pulls.VCommon]
      [emoji_thisdog, emoji_thisdog, emoji_thisdog, emoji_thisdog,
        emoji_thisdog, emoji_thisdog]
      (by decide)⟩

/-- C9: a draw is discarded only when the incremented repeat counter is
exactly 2 — an equal draw with any other counter value is accepted, so once
a run escapes via the reroll path (counter at 2 and beyond) no later
identical draw of that run is discarded; consequently the 6-symbol output
can contain maximal runs of 3, 4, 5 and even 6 identical consecutive
symbols — the reroll does not cap runs at three. -/
theorem c9_reroll_no_cap :
    (∀ (d : Pulls) (rest : List Pulls) (last same : Nat) (extra : List Nat),
      decoEmoji d = last → same ≠ 1 →
      genDecoAux (d :: rest) last same extra
        = if (extra ++ [decoEmoji d]).length = 6 then some (extra ++ [decoEmoji d])
          else genDecoAux rest last (same + 1) (extra ++ [decoEmoji d])) ∧
    (∃ (ds : List Pulls) (out : List Nat),
        genDeco ds = some out ∧ maxRun out = 3) ∧
    (∃ (ds : List Pulls) (out : List Nat),
        genDeco ds = some out ∧ maxRun out = 4) ∧
    (∃ (ds : List Pulls) (out : List Nat),
        genDeco ds = some out ∧ maxRun out = 5) ∧
    (∃ (ds : List Pulls) (out : List Nat),
        genDeco ds = some out ∧ maxRun out = 6) := by
  refine ⟨?_, ?_, ?_, ?_, ?_⟩
  · intro d rest last same extra h1 h2
    have h3 : same + 1 ≠ 2 := by omega
    simp [genDecoAux, h1, h3]
  · exact ⟨[Pulls.VCommon, Pulls.VCommon, Pulls.VCommon, Pulls.VCommon,
        Pulls.Common, Pulls.Rare, Pulls.Epic],
      [emoji_thisdog, emoji_thisdog, emoji_thisdog, emoji_delfruit,
        emoji_miku, emoji_patsball], by decide, by decide⟩
  · exact ⟨[Pulls.VCommon, Pulls.VCommon, Pulls.VCommon, Pulls.VCommon,
        Pulls.VCommon, Pulls.Common, Pulls.Rare],
      [emoji_thisdog, emoji_thisdog, emoji_thisdog, emoji_thisdog,
        emoji_delfruit, emoji_miku], by decide, by decide⟩
  · exact ⟨[Pulls.VCommon, Pulls.VCommon, Pulls.VCommon, Pulls.VCommon,
        Pulls.VCommon, Pulls.VCommon, Pulls.Common],
      [emoji_thisdog, emoji_thisdog, emoji_thisdog, emoji_thisdog,
        emoji_thisdog, emoji_delfruit], by decide, by decide⟩
  · exact ⟨[Pulls.VCommon, Pulls.VCommon, Pulls.VCommon, Pulls.VCommon,
        Pulls.VCommon, Pulls.VCommon, Pulls.VCommon],
      [emoji_thisdog, emoji_thisdog, emoji_thisdog, emoji_thisdog,
        emoji_thisdog, emoji_thisdog], by decide, by decide⟩

theorem c9_reroll_no_cap_w :
    (decoEmoji Pulls.VCommon = emoji_thisdog) ∧ ((2 : Nat) ≠ 1) ∧
    genDecoAux [Pulls.VCommon] emoji_thisdog 2 [emoji_thisdog, emoji_thisdog]
      = (if (([emoji_thisdog, emoji_thisdog] ++ [decoEmoji Pulls.VCommon]) :
              List Nat).length = 6
         then some ([emoji_thisdog, emoji_thisdog] ++ [decoEmoji Pulls.VCommon])
         else genDecoAux [] emoji_thisdog 3
                ([emoji_thisdog, emoji_thisdog] ++ [decoEmoji Pulls.VCommon])) :=
  ⟨by decide, by decide,
    c9_reroll_no_cap.1 Pulls.VCommon [] emoji_thisdog 2
      [emoji_thisdog, emoji_thisdog] (by decide) (by decide)⟩

/-- Lines of the rendered reply for winning row 0: the winning row first,
then the decorative symbols popped from the back (reverse generation
order), three per line. -/
theorem tokLines_render0 (A R U a b c d e f : Nat) :
    tokLines (renderMsg A R U 0 [a, b, c, d, e, f])
      = [lineOf A A A, lineOf f e d, lineOf c b a,
         [Tok.sym R, Tok.txt (", Won " ++ toString U ++ " Units!")]] := rfl

/-- Lines of the rendered reply for winning row 1. -/
theorem tokLines_render1 (A R U a b c d e f : Nat) :
    tokLines (renderMsg A R U 1 [a, b, c, d, e, f])
      = [lineOf f e d, lineOf A A A, lineOf c b a,
         [Tok.sym R, Tok.txt (", Won " ++ toString U ++ " Units!")]] := rfl

/-- Lines of the rendered reply for winning row 2. -/
theorem tokLines_render2 (A R U a b c d e f : Nat) :
    tokLines (renderMsg A R U 2 [a, b, c, d, e, f])
      = [lineOf f e d, lineOf c b a, lineOf A A A,
         [Tok.sym R, Tok.txt (", Won " ++ toString U ++ " Units!")]] := rfl

/-- C5 (counterexample): with decorative symbols 0..5 in generation order
and winning row 1, the first rendered line is not the first three
decorative symbols in generation order (it is the last three, reversed). -/
theorem c5_row1_first_line_cex :
    (tokLines (renderMsg 99 7 25 1 [0, 1, 2, 3, 4, 5])).getD 0 []
      ≠ lineOf 0 1 2 := by decide

/-- C5 (amended): rows are filled by popping the decorative vector from the
back: for winning row 1 the first line holds the last three decorative
symbols in reverse generation order, the second line is the winning row,
and the third line holds the first three decorative symbols in reverse
generation order; for winning row 2 the first line holds the last three
(reversed), the second the first three (reversed), and the winning row is
last. -/
theorem c5_rows_render_reversed (A R U a b c d e f : Nat) :
    tokLines (renderMsg A R U 1 [a, b, c, d, e, f])
      = [lineOf f e d, lineOf A A A, lineOf c b a,
         [Tok.sym R, Tok.txt (", Won " ++ toString U ++ " Units!")]] ∧
    tokLines (renderMsg A R U 2 [a, b, c, d, e, f])
      = [lineOf f e d, lineOf c b a, lineOf A A A,
         [Tok.sym R, Tok.txt (", Won " ++ toString U ++ " Units!")]] :=
  ⟨tokLines_render1 A R U a b c d e f, tokLines_render2 A R U a b c d e f⟩

/-- C6: for every winning row in `0..=2`, the rendered reply starts with a
block of three lines, each of shape bar, symbol, bar, symbol, bar, symbol,
bar, and line `row + 1` of the block (index `row`) is three copies of the
winning symbol; in particular for row 0 the first line is the winning
symbol three times. -/
theorem c6_grid_lines (A R U a b c d e f row : Nat) (h : row ≤ 2) :
    (tokLines (renderMsg A R U row [a, b, c, d, e, f])).length = 4 ∧
    ((tokLines (renderMsg A R U row [a, b, c, d, e, f])).take 3).all
        isTripleRow = true ∧
    (tokLines (renderMsg A R U row [a, b, c, d, e, f])).getD row []
      = lineOf A A A := by
  interval_cases row
  · rw [tokLines_render0]
    exact ⟨rfl, rfl, rfl⟩
  · rw [tokLines_render1]
    exact ⟨rfl, rfl, rfl⟩
  · rw [tokLines_render2]
    exact ⟨rfl, rfl, rfl⟩

theorem c6_grid_lines_w :
    ((0 : Nat) ≤ 2) ∧
    (tokLines (renderMsg 11 12 13 0 [1, 2, 3, 4, 5, 6])).length = 4 ∧
    ((tokLines (renderMsg 11 12 13 0 [1, 2, 3, 4, 5, 6])).take 3).all
        isTripleRow = true ∧
    (tokLines (renderMsg 11 12 13 0 [1, 2, 3, 4, 5, 6])).getD 0 []
      = lineOf 11 11 11 :=
  ⟨by decide, c6_grid_lines 11 12 13 1 2 3 4 5 6 0 (by decide)⟩

/-- C4 (counterexample): with a first cycle failing at export and a second
clean cycle scheduled, the backup thread returns the error: only one cycle
ever starts (the next scheduled cycle does not execute) and the failing
cycle's temporary files are not cleaned up. -/
theorem c4_backup_loop_dies_cex :
    backupLoop [⟨some "io error", none, none, none⟩, ⟨none, none, none, none⟩]
      = Except.error "io error" ∧
    cyclesRun [⟨some "io error", none, none, none⟩,
        ⟨none, none, none, none⟩] = 1 ∧
    cycleCleanup ⟨some "io error", none, none, none⟩ = false :=
  ⟨rfl, rfl, rfl⟩

/-- C4 (amended): when a backup cycle fails at any step, the `?` operator
makes the thread closure return that error, terminating the backup loop: no
later scheduled cycle executes (exactly the clean prefix plus the failing
cycle ever start), and the failing cycle's temporary files are not cleaned
up. -/
theorem c4_backup_failure_ends_loop (pre : List BackupCycle) (c : BackupCycle)
    (rest : List BackupCycle) (e : String)
    (hpre : (pre.all fun c' => (cycleErr c').isNone) = true)
    (hc : cycleErr c = some e) :
    backupLoop (pre ++ c :: rest) = Except.error e ∧
    cyclesRun (pre ++ c :: rest) = pre.length + 1 ∧
    cycleCleanup c = false := by
  induction pre with
  | nil =>
    refine ⟨?_, ?_, ?_⟩ <;> simp [backupLoop, cyclesRun, cycleCleanup, hc]
  | cons a pre ih =>
    simp only [List.all_cons, Bool.and_eq_true] at hpre
    have ha : cycleErr a = none := Option.isNone_iff_eq_none.mp hpre.1
    have hrec := ih hpre.2
    refine ⟨?_, ?_, hrec.2.2⟩
    · rw [List.cons_append]
      simpa [backupLoop, ha] using hrec.1
    · rw [List.cons_append]
      simp only [cyclesRun, ha, hrec.2.1, List.length_cons]
      omega

theorem c4_backup_failure_ends_loop_w :
    ((([] : List BackupCycle).all fun c' => (cycleErr c').isNone) = true) ∧
    (cycleErr ⟨some "boom", none, none, none⟩ = some "boom") ∧
    (backupLoop ([] ++ (⟨some "boom", none, none, none⟩ : BackupCycle)
          :: [(⟨none, none, none, none⟩ : BackupCycle)])
        = Except.error "boom" ∧
      cyclesRun ([] ++ (⟨some "boom", none, none, none⟩ : BackupCycle)
          :: [(⟨none, none, none, none⟩ : BackupCycle)])
        = ([] : List BackupCycle).length + 1 ∧
      cycleCleanup ⟨some "boom", none, none, none⟩ = false) :=
  ⟨by decide, by decide,
    c4_backup_failure_ends_loop [] ⟨some "boom", none, none, none⟩
      [⟨none, none, none, none⟩] "boom" (by decide) (by decide)⟩

/-- Splitting at newlines peels off a newline-terminated line that contains
no newline itself. -/
theorem linesOf_append (l rest : List Char) (hl : '\n' ∉ l) :
    linesOf (l ++ '\n' :: rest) = l :: linesOf rest := by
  induction l with
  | nil => simp [linesOf]
  | cons c cs ih =>
    have hc : c ≠ '\n' := fun h => hl (h ▸ List.mem_cons_self c cs)
    have hcs : '\n' ∉ cs := fun h => hl (List.mem_cons_of_mem c h)
    show linesOf (c :: (cs ++ '\n' :: rest)) = (c :: cs) :: linesOf rest
    simp only [linesOf, if_neg hc, ih hcs]

/-- Splitting at the first comma recovers the two halves of a line whose
key half is comma-free. -/
theorem splitComma_append (k v : List Char) (hk : ',' ∉ k) :
    splitComma (k ++ ',' :: v) = (k, v) := by
  induction k with
  | nil => simp [splitComma]
  | cons c cs ih =>
    have hc : c ≠ ',' := fun h => hk (h ▸ List.mem_cons_self c cs)
    have hcs : ',' ∉ cs := fun h => hk (List.mem_cons_of_mem c h)
    simp [List.cons_append, splitComma, if_neg hc, ih hcs]

/-- The newline split of a dump body: one line per pair, in order, plus the
empty fragment after the final newline. -/
theorem linesOf_body (pairs : List (List Char × List Char))
    (hp : ∀ p ∈ pairs, '\n' ∉ p.1 ∧ '\n' ∉ p.2) :
    linesOf (pairs.map dumpPair).flatten
      = pairs.map (fun p => p.1 ++ ',' :: p.2) ++ [[]] := by
  induction pairs with
  | nil => simp [linesOf]
  | cons p ps ih =>
    have h1 := hp p (List.mem_cons_self p ps)
    have hline : '\n' ∉ p.1 ++ ',' :: p.2 := by
      intro h
      rcases List.mem_append.mp h with h | h
      · exact h1.1 h
      · rcases List.mem_cons.mp h with h | h
        · exact absurd h (by decide)
        · exact h1.2 h
    have hps : ∀ q ∈ ps, '\n' ∉ q.1 ∧ '\n' ∉ q.2 :=
      fun q hq => hp q (List.mem_cons_of_mem p hq)
    have hsplit : (List.map dumpPair (p :: ps)).flatten
        = (p.1 ++ ',' :: p.2) ++ '\n' :: (ps.map dumpPair).flatten := by
      simp [dumpPair, List.append_assoc]
    rw [hsplit, linesOf_append _ _ hline, ih hps]
    simp

/-- The trailing-empty-terminated body lines parse back to their pairs. -/
theorem parseBody_lines (pairs : List (List Char × List Char))
    (hpc : ∀ p ∈ pairs, ',' ∉ p.1) :
    parseBody (pairs.map (fun p => p.1 ++ ',' :: p.2) ++ [[]]) = some pairs := by
  induction pairs with
  | nil => simp [parseBody]
  | cons p ps ih =>
    have h1 : ',' ∉ p.1 := hpc p (List.mem_cons_self p ps)
    have hps : ∀ q ∈ ps, ',' ∉ q.1 :=
      fun q hq => hpc q (List.mem_cons_of_mem p hq)
    have hline : parseBody ((p.1 ++ ',' :: p.2)
          :: (ps.map (fun q => q.1 ++ ',' :: q.2) ++ [[]]))
        = (parseBody (ps.map (fun q => q.1 ++ ',' :: q.2) ++ [[]])).map
            fun qs => splitComma (p.1 ++ ',' :: p.2) :: qs := by
      cases hps' : ps.map (fun q => q.1 ++ ',' :: q.2) ++ [[]] with
      | nil => exact absurd hps' (by simp)
      | cons x xs => rfl
    simp only [List.map_cons, List.cons_append, hline, ih hps,
      splitComma_append p.1 p.2 h1, Option.map_some]
    simp

/-- A decimal digit is neither a comma nor a newline. -/
theorem digit_ne (c : Char) (h : c.isDigit = true) : c ≠ ',' ∧ c ≠ '\n' := by
  constructor <;> intro he <;> subst he <;> exact absurd h (by decide)

/-- C8: exporting a store with decimal-string keys and values writes the
identifier line, the store-tag line, then exactly one `key,value` line per
pair in order; re-parsing that dump recovers the identifier, the tag and
the original pair list exactly (round-trip identity). -/
theorem c8_export_roundtrip (ident tag : List Char)
    (pairs : List (List Char × List Char))
    (hid : strNoNL ident = true) (htag : strNoNL tag = true)
    (hp : (pairs.all fun p => strDigits p.1 && strDigits p.2) = true) :
    linesOf (exportDump ident tag pairs)
      = ident :: tag :: (pairs.map (fun p => p.1 ++ ',' :: p.2) ++ [[]]) ∧
    parseDump (exportDump ident tag pairs) = some (ident, tag, pairs) := by
  have hid' : '\n' ∉ ident := by
    intro h
    have := List.all_eq_true.mp hid _ h
    simp at this
  have htag' : '\n' ∉ tag := by
    intro h
    have := List.all_eq_true.mp htag _ h
    simp at this
  have hdig : ∀ p ∈ pairs, strDigits p.1 = true ∧ strDigits p.2 = true := by
    intro p hmem
    have := List.all_eq_true.mp hp _ hmem
    exact Bool.and_eq_true_iff.mp this
  have hnl : ∀ p ∈ pairs, '\n' ∉ p.1 ∧ '\n' ∉ p.2 := by
    intro p hmem
    have hd := hdig p hmem
    constructor <;> intro h
    · exact (digit_ne _ (List.all_eq_true.mp hd.1 _ h)).2 rfl
    · exact (digit_ne _ (List.all_eq_true.mp hd.2 _ h)).2 rfl
  have hpc : ∀ p ∈ pairs, ',' ∉ p.1 := by
    intro p hmem h
    exact (digit_ne _ (List.all_eq_true.mp (hdig p hmem).1 _ h)).1 rfl
  have hlines : linesOf (exportDump ident tag pairs)
      = ident :: tag :: (pairs.map (fun p => p.1 ++ ',' :: p.2) ++ [[]]) := by
    unfold exportDump
    rw [linesOf_append _ _ hid', linesOf_append _ _ htag', linesOf_body _ hnl]
  refine ⟨hlines, ?_⟩
  unfold parseDump
  rw [hlines]
  show (parseBody
        (pairs.map (fun p => p.1 ++ ',' :: p.2) ++ [[]])).map
      (fun ps => (ident, tag, ps)) = some (ident, tag, pairs)
  rw [parseBody_lines _ hpc]
  rfl

theorem c8_export_roundtrip_w :
    (strNoNL ['t', 'i', 'x'] = true) ∧ (strNoNL ['d', 'b'] = true) ∧
    (([(['1'], ['5', '0']), (['2'], ['7'])].all
        fun p => strDigits p.1 && strDigits p.2) = true) ∧
    linesOf (exportDump ['t', 'i', 'x'] ['d', 'b']
        [(['1'], ['5', '0']), (['2'], ['7'])])
      = ['t', 'i', 'x'] :: ['d', 'b']
          :: ([(['1'], ['5', '0']), (['2'], ['7'])].map
              (fun p => p.1 ++ ',' :: p.2) ++ [[]]) ∧
    parseDump (exportDump ['t', 'i', 'x'] ['d', 'b']
        [(['1'], ['5', '0']), (['2'], ['7'])])
      = some (['t', 'i', 'x'], ['d', 'b'], [(['1'], ['5', '0']), (['2'], ['7'])]) :=
  ⟨by decide, by decide, by decide,
    (c8_export_roundtrip ['t', 'i', 'x'] ['d', 'b']
      [(['1'], ['5', '0']), (['2'], ['7'])] (by decide) (by decide) (by decide)).1,
    (c8_export_roundtrip ['t', 'i', 'x'] ['d', 'b']
      [(['1'], ['5', '0']), (['2'], ['7'])] (by decide) (by decide) (by decide)).2⟩

end GeezerSlots
